import Mathlib

/-!
Verification development for the open-egm4 host-side driver.

The definitions below are a shallow embedding of the Python sources:
  * `src/src/egm_interface.py`  — `EGM4Serial._parse_data` (record decoder)
    and the frame-splitting loop body of `EGM4Serial.process_loop`;
  * `src/src/analysis.py`      — `FluxCalculator.calculate`;
  * `src/src/tui/widgets/co2_chart.py` — `CO2PlotWidget.add_data`,
    `CO2PlotWidget.clear_data` and the DT-accumulation loop of
    `CO2PlotWidget.replot`.

Machine floats of the Python code are embedded as exact rationals (`ℚ`);
Python `int` values as `ℤ`.  Strings are handled at the `List Char` level so
that Python's slice arithmetic (including negative, end-anchored indices)
can be reproduced exactly.
-/

/- The Batteries rational-number operations are `@[irreducible]`, which
blocks `decide`/`rfl` evaluation of concrete frames; restore reducibility so
that witnesses can be checked by evaluation. -/
attribute [local semireducible] Rat.add Rat.sub Rat.mul Rat.inv Rat.ofScientific

namespace EGM

/-! ### Python string primitives -/

/-- The character class stripped by Python's `str.strip()` (ASCII whitespace;
the instrument protocol is ASCII-only). -/
def isPyWS (c : Char) : Bool :=
  c = ' ' || c = '\t' || c = '\n' || c = '\r' || c = '\x0b' || c = '\x0c'

/-- Python `str.strip()` on a character list. -/
def stripChars (cs : List Char) : List Char :=
  ((cs.dropWhile isPyWS).reverse.dropWhile isPyWS).reverse

/-- Numeric value of a nonempty run of ASCII digits; `none` otherwise. -/
def digitsVal : List Char → Option ℕ
  | [] => none
  | [c] => if c.isDigit then some (c.toNat - 48) else none
  | c :: cs =>
    if c.isDigit then
      (digitsVal cs).map (fun v => (c.toNat - 48) * 10 ^ cs.length + v)
    else none

/-- Python `int(s)`: optional surrounding whitespace, optional sign, then a
nonempty digit run.  (Exotic forms — underscores, non-ASCII digits — do not
occur in the protocol and are out of scope.) -/
def pyIntChars? (cs : List Char) : Option ℤ :=
  match stripChars cs with
  | '+' :: rest => (digitsVal rest).map (fun v => (v : ℤ))
  | '-' :: rest => (digitsVal rest).map (fun v => -(v : ℤ))
  | rest => (digitsVal rest).map (fun v => (v : ℤ))

/-- Value of an optional digit run after a decimal point: `none` on any
non-digit; the pair is (numerator, number of digits). -/
def fracVal : List Char → Option (ℕ × ℕ)
  | [] => some (0, 0)
  | c :: cs =>
    if c.isDigit then
      (fracVal cs).map (fun p => ((c.toNat - 48) * 10 ^ p.2 + p.1, p.2 + 1))
    else none

/-- Digit run before the decimal point (may be empty). -/
def intPartVal : List Char → Option ℕ
  | [] => some 0
  | cs => digitsVal cs

/-- Unsigned decimal literal: `digits`, `digits.digits`, `digits.` or
`.digits`. -/
def decimalVal (cs : List Char) : Option ℚ :=
  match cs.splitOn '.' with
  | [w] => (digitsVal w).map (fun v => (v : ℚ))
  | [w, f] =>
    if w = [] ∧ f = [] then none
    else
      match intPartVal w, fracVal f with
      | some iv, some (fv, fd) => some ((iv : ℚ) + (fv : ℚ) / 10 ^ fd)
      | _, _ => none
  | _ => none

/-- Python `float(s)` on the decimal forms the protocol uses: optional
whitespace, optional sign, digits with an optional decimal point.
(`inf`/`nan`/exponent forms never occur in the frames and are not modelled.) -/
def pyFloatChars? (cs : List Char) : Option ℚ :=
  match stripChars cs with
  | '+' :: rest => decimalVal rest
  | '-' :: rest => (decimalVal rest).map (fun q => -q)
  | rest => decimalVal rest

/-- Python slice `s[a:b]` with signed indices and clamping. -/
def pySlice (cs : List Char) (a b : ℤ) : List Char :=
  let n : ℤ := cs.length
  let norm : ℤ → ℕ := fun i => (if i < 0 then max (n + i) 0 else min i n).toNat
  (cs.drop (norm a)).take (norm b - norm a)

/-- Python slice `s[a:]`. -/
def pySliceFrom (cs : List Char) (a : ℤ) : List Char :=
  pySlice cs a cs.length

/-- Python `str.split(sep)` for a one-character separator (all occurrences,
keeping empty pieces). -/
def splitChar (sep : Char) : List Char → List (List Char)
  | [] => [[]]
  | c :: cs =>
    if c = sep then [] :: splitChar sep cs
    else
      match splitChar sep cs with
      | [] => [[c]]
      | p :: ps => (c :: p) :: ps

/-- Python `str.replace('+', '')`. -/
def removePlus (cs : List Char) : List Char :=
  cs.filter (fun c => c ≠ '+')

/-! ### The decoded Reading

`EGM4Serial._parse_data` returns a Python dict; each key that the function
can ever set is one `Option` field here (`none` = key absent).  The
`device_timestamp` key (a best-effort calendar value depending on the
wall-clock year, set inside its own try/except) is not modelled: no claim
refers to it and its computation cannot alter any other field. -/
structure Reading where
  typ : Option String := none
  plot : Option ℤ := none
  record : Option ℤ := none
  day : Option ℤ := none
  month : Option ℤ := none
  hour : Option ℤ := none
  minute : Option ℤ := none
  co2_ppm : Option ℚ := none
  h2o : Option ℤ := none
  rht : Option ℚ := none
  probe_type : Option ℤ := none
  par : Option ℚ := none
  rh : Option ℚ := none
  temp : Option ℚ := none
  rh_out : Option ℚ := none
  flow : Option ℚ := none
  gs : Option ℚ := none
  evap : Option ℚ := none
  dc : Option ℚ := none
  sr_mag : Option ℚ := none
  flow_mult : Option ℚ := none
  aux1 : Option ℚ := none
  aux2 : Option ℚ := none
  aux3 : Option ℚ := none
  aux4 : Option ℚ := none
  aux5 : Option ℚ := none
  atmp : Option ℤ := none
  sr : Option ℚ := none
  dt : Option ℤ := none
  warmup_temp : Option ℚ := none
  zero_countdown : Option ℚ := none
  error : Option String := none
  raw : Option String := none
  deriving DecidableEq, Repr

/-- Keys of the probe-specific field table `PROBE_DEFINITIONS`. -/
inductive FieldKey where
  | par | rh | temp | rh_out | flow | gs | evap | dc
  | sr_mag | flow_mult | aux1 | aux2 | aux3 | aux4 | aux5 | sr_sign
  deriving DecidableEq, Repr

/-- The conversion function of a field descriptor (`int`, `float(x)/10`,
`float(x)/100`, `str`). -/
inductive FieldConv where
  | cInt | cF10 | cF100 | cStr
  deriving DecidableEq, Repr

/-- `PROBE_DEFINITIONS` of `_parse_data`: probe-type code ↦ ordered list of
`(start_idx, end_idx, field_key, conversion)`.  The Python dict literal lists
key `0` twice with identical content (second wins); probe type 8 maps to an
empty list (its analytic fields are read end-anchored in post-processing);
unrecognized codes use the `'default'` entry. -/
def probeDefs (pt : ℤ) : List (ℕ × ℕ × FieldKey × FieldConv) :=
  if pt = 0 then
    [(30, 34, .aux1, .cInt), (34, 38, .aux2, .cInt), (38, 42, .aux3, .cInt),
     (42, 46, .aux4, .cInt), (46, 50, .aux5, .cInt)]
  else if pt = 1 then
    [(30, 34, .par, .cInt), (34, 38, .rh, .cF10), (38, 42, .temp, .cF10),
     (46, 50, .aux5, .cInt)]
  else if pt = 2 ∨ pt = 3 then
    [(30, 34, .par, .cInt), (34, 38, .rh, .cF10), (38, 42, .temp, .cF10)]
  else if pt = 7 then
    [(30, 34, .par, .cInt), (34, 38, .rh, .cF10), (38, 42, .temp, .cF10),
     (42, 46, .rh_out, .cF10), (46, 50, .flow, .cF10), (50, 54, .gs, .cInt)]
  else if pt = 8 then
    []
  else if pt = 11 then
    [(30, 34, .par, .cInt), (34, 38, .evap, .cInt), (38, 42, .temp, .cF10),
     (42, 46, .dc, .cInt), (46, 50, .flow, .cF10), (50, 54, .sr_mag, .cF100),
     (54, 55, .flow_mult, .cInt), (56, 58, .sr_sign, .cStr)]
  else
    [(30, 34, .aux1, .cInt), (34, 38, .aux2, .cInt), (38, 42, .aux3, .cInt),
     (42, 46, .aux4, .cInt), (46, 50, .aux5, .cInt)]

/-- Write a probe-specific field value into the Reading (the dict assignment
`data[key] = v`).  `sr_sign` never reaches this point (the loop skips it). -/
def setFieldKey (r : Reading) (k : FieldKey) (v : ℚ) : Reading :=
  match k with
  | .par => { r with par := some v }
  | .rh => { r with rh := some v }
  | .temp => { r with temp := some v }
  | .rh_out => { r with rh_out := some v }
  | .flow => { r with flow := some v }
  | .gs => { r with gs := some v }
  | .evap => { r with evap := some v }
  | .dc => { r with dc := some v }
  | .sr_mag => { r with sr_mag := some v }
  | .flow_mult => { r with flow_mult := some v }
  | .aux1 => { r with aux1 := some v }
  | .aux2 => { r with aux2 := some v }
  | .aux3 => { r with aux3 := some v }
  | .aux4 => { r with aux4 := some v }
  | .aux5 => { r with aux5 := some v }
  | .sr_sign => r

/-- A descriptor's conversion applied to the sliced text.  Results are exact
rationals; `int()` results are integral. -/
def applyFieldConv (c : FieldConv) (s : List Char) : Option ℚ :=
  match c with
  | .cInt => (pyIntChars? s).map (fun z => (z : ℚ))
  | .cF10 => (pyFloatChars? s).map (fun q => q / 10)
  | .cF100 => (pyFloatChars? s).map (fun q => q / 100)
  | .cStr => none

/-- The `for start, end, key, func in defs` loop of `_parse_data`: each field
is guarded by `len(line) >= end`; the key `sr_sign` is special-cased to
`pass` (never stored); a failing conversion stores `0` (the bare `except`). -/
def runDefs (cs : List Char) (defs : List (ℕ × ℕ × FieldKey × FieldConv))
    (r : Reading) : Reading :=
  defs.foldl
    (fun r d =>
      if d.2.1 ≤ cs.length then
        if d.2.2.1 = FieldKey.sr_sign then r
        else
          match applyFieldConv d.2.2.2 (pySlice cs d.1 d.2.1) with
          | some v => setFieldKey r d.2.2.1 v
          | none => setFieldKey r d.2.2.1 0
      else r)
    r

/-- The outer `except Exception` handler of `_parse_data`: the partially
filled dict keeps the fields set so far and gains `error` and `raw`.
(The Python message text `str(e)` is not modelled beyond presence.) -/
def errored (r : Reading) (line : String) : Reading :=
  { r with error := some "ValueError", raw := some line }

/-- The probe-type-8 (SRC-1) end-anchored post-processing block: ATMP, SR,
DT and DC are sliced backward from the end of the line, each in its own
try/except defaulting to zero. -/
def type8Post (cs : List Char) (r : Reading) : Reading :=
  { r with
    atmp := some ((pyIntChars? (pySlice cs (-6) (-2))).getD 0),
    sr := some (((pyFloatChars? (pySlice cs (-14) (-10))).map (fun q => q / 100)).getD 0),
    dt := some ((pyIntChars? (pySlice cs (-18) (-14))).getD 0),
    dc := some (((pyIntChars? (pySlice cs (-22) (-18))).map (fun z => (z : ℚ))).getD 0) }

/-- The measurement branch of `_parse_data` (first char `R`/`M`, length ≥ 20).
The seven core header fields are parsed by unguarded `int()` calls: the first
failure raises, aborting the branch into the outer handler (`errored`) with
the fields set so far.  H2O, RHT, the probe type, the probe-specific fields
and the type-8 block each have their own per-field try/except. -/
def parseMeasurement (line : String) (cs : List Char) (c0 : Char) : Reading :=
  let r0 : Reading := { typ := some (String.mk [c0]) }
  match pyIntChars? (pySlice cs 1 3) with
  | none => errored r0 line
  | some plotv =>
  let r1 := { r0 with plot := some plotv }
  match pyIntChars? (pySlice cs 3 7) with
  | none => errored r1 line
  | some recv =>
  let r2 := { r1 with record := some recv }
  match pyIntChars? (pySlice cs 7 9) with
  | none => errored r2 line
  | some dayv =>
  let r3 := { r2 with day := some dayv }
  match pyIntChars? (pySlice cs 9 11) with
  | none => errored r3 line
  | some monthv =>
  let r4 := { r3 with month := some monthv }
  match pyIntChars? (pySlice cs 11 13) with
  | none => errored r4 line
  | some hourv =>
  let r5 := { r4 with hour := some hourv }
  match pyIntChars? (pySlice cs 13 15) with
  | none => errored r5 line
  | some minv =>
  let r6 := { r5 with minute := some minv }
  match pyIntChars? (pySlice cs 15 20) with
  | none => errored r6 line
  | some co2v =>
  let r7 := { r6 with co2_ppm := some ((co2v : ℚ)) }
  let r8 :=
    if 25 ≤ cs.length then
      { r7 with h2o := some ((pyIntChars? (pySlice cs 20 25)).getD 0) }
    else r7
  let r9 :=
    if 30 ≤ cs.length then
      { r8 with rht := some (((pyFloatChars? (pySlice cs 25 30)).map (fun q => q / 10)).getD 0) }
    else r8
  let pt := (pyIntChars? (pySliceFrom cs (-2))).getD 0
  let r10 := { r9 with probe_type := some pt }
  let r11 := runDefs cs (probeDefs pt) r10
  if pt = 8 then type8Post cs r11 else r11

/-- The `B` banner branch: comma-separated; with ≥ 3 parts, `co2_ppm` is
`float(parts[2])` inside try/except-pass (key absent on failure). -/
def parseB (cs : List Char) : Reading :=
  let r0 : Reading := { typ := some "B" }
  let parts := splitChar ',' cs
  if 3 ≤ parts.length then
    { r0 with co2_ppm := pyFloatChars? (parts.getD 2 []) }
  else r0

/-- The `W` warmup branch: `W,+NN`; the value has `+` removed and is
stripped, then `float()` with except-ValueError defaulting to 0. -/
def parseW (cs : List Char) : Reading :=
  let r0 : Reading := { typ := some "W" }
  if ',' ∈ cs then
    let parts := splitChar ',' cs
    if 2 ≤ parts.length then
      let v := (pyFloatChars? (stripChars (removePlus (parts.getD 1 [])))).getD 0
      { r0 with warmup_temp := some v }
    else r0
  else r0

/-- The `Z` branch: with a comma it is a zero-check countdown; a bare `Z`
marks end-of-memory-dump (`Z_END`). -/
def parseZ (cs : List Char) : Reading :=
  if ',' ∈ cs then
    let r0 : Reading := { typ := some "Z" }
    let parts := splitChar ',' cs
    if 2 ≤ parts.length then
      let v := (pyFloatChars? (stripChars (removePlus (parts.getD 1 [])))).getD 0
      { r0 with zero_countdown := some v }
    else r0
  else { typ := some "Z_END" }

/-- `EGM4Serial._parse_data`: total — every branch returns a Reading; the
outer try/except turns any header exception into an `error`-tagged Reading. -/
def parseData (line : String) : Reading :=
  let cs := line.data
  if 20 ≤ cs.length ∧ (cs.head? = some 'R' ∨ cs.head? = some 'M') then
    parseMeasurement line cs cs.headI
  else if 0 < cs.length ∧ cs.head? = some 'B' then parseB cs
  else if 0 < cs.length ∧ cs.head? = some 'W' then parseW cs
  else if 0 < cs.length ∧ cs.head? = some 'Z' then parseZ cs
  else { typ := some "unknown", raw := some line }

/-! ### The Frame Splitter

`EGM4Serial.process_loop` keeps `self.buffer` (a str), appends each decoded
chunk, and then repeatedly takes everything before the first `'\r'` as one
record (`buffer.split('\r', 1)`), strips it, and emits it unless it is empty
after stripping.  We model one read iteration as `feedChunk` and the loop
over a chunk sequence as `feedAll`, both at the `List Char` level. -/

/-- Split a text into the complete (delimited) records and the undelimited
tail: exactly the effect of the `while '\r' in self.buffer` loop on a fixed
buffer content. -/
def splitCR : List Char → List (List Char) × List Char
  | [] => ([], [])
  | c :: cs =>
    if c = '\r' then ([] :: (splitCR cs).1, (splitCR cs).2)
    else
      match splitCR cs with
      | ([], rest) => ([], c :: rest)
      | (s :: ss, rest) => ((c :: s) :: ss, rest)

/-- Strip each complete record and drop the ones that are empty after
stripping (`record = record.strip(); if record:`). -/
def emitRecords (segs : List (List Char)) : List (List Char) :=
  (segs.map stripChars).filter (fun r => r ≠ [])

/-- One iteration of the read loop on text `chunk`: the new buffer contents
and the raw frames handed to `_parse_data`/`data_callback`, in order. -/
def feedChunk (buf chunk : List Char) : List Char × List (List Char) :=
  let p := splitCR (buf ++ chunk)
  (p.2, emitRecords p.1)

/-- Feeding a sequence of text chunks: final buffer and all frames emitted,
in arrival order. -/
def feedAll (buf : List Char) : List (List Char) → List Char × List (List Char)
  | [] => (buf, [])
  | c :: cs =>
    let p := feedChunk buf c
    let q := feedAll p.1 cs
    (q.1, p.2 ++ q.2)

/-! #### Byte level: `chunk.decode('utf-8', errors='ignore')`

The transport hands `process_loop` bytes; each chunk is decoded to text
*independently* with `errors='ignore'`: undecodable bytes are dropped (not
replaced), and a multi-byte sequence cut off at the end of a chunk is
dropped as well, because the next chunk is decoded from scratch. -/

/-- A UTF-8 continuation byte. -/
def isCont (b : ℕ) : Bool := 128 ≤ b ∧ b ≤ 191

/-- UTF-8 decoding with `errors='ignore'`, fuel-indexed for structural
recursion: every recursive call consumes at least one byte and one unit of
fuel, so fuel = byte count (see `decodeIgnore`) never runs out early. -/
def decodeIgnoreGo : ℕ → List ℕ → List Char
  | 0, _ => []
  | _, [] => []
  | fuel + 1, b :: rest =>
    if b < 128 then Char.ofNat b :: decodeIgnoreGo fuel rest
    else if 194 ≤ b ∧ b ≤ 223 then
      match rest with
      | [] => []
      | b2 :: rest2 =>
        if isCont b2 then Char.ofNat ((b - 192) * 64 + (b2 - 128)) :: decodeIgnoreGo fuel rest2
        else decodeIgnoreGo fuel rest
    else if 224 ≤ b ∧ b ≤ 239 then
      match rest with
      | [] => []
      | b2 :: rest2 =>
        if (if b = 224 then 160 else 128) ≤ b2 ∧ b2 ≤ (if b = 237 then 159 else 191) then
          match rest2 with
          | [] => []
          | b3 :: rest3 =>
            if isCont b3 then
              Char.ofNat ((b - 224) * 4096 + (b2 - 128) * 64 + (b3 - 128)) :: decodeIgnoreGo fuel rest3
            else decodeIgnoreGo fuel rest2
        else decodeIgnoreGo fuel rest
    else if 240 ≤ b ∧ b ≤ 244 then
      match rest with
      | [] => []
      | b2 :: rest2 =>
        if (if b = 240 then 144 else 128) ≤ b2 ∧ b2 ≤ (if b = 244 then 143 else 191) then
          match rest2 with
          | [] => []
          | b3 :: rest3 =>
            if isCont b3 then
              match rest3 with
              | [] => []
              | b4 :: rest4 =>
                if isCont b4 then
                  Char.ofNat ((b - 240) * 262144 + (b2 - 128) * 4096 + (b3 - 128) * 64 + (b4 - 128))
                    :: decodeIgnoreGo fuel rest4
                else decodeIgnoreGo fuel rest3
            else decodeIgnoreGo fuel rest2
        else decodeIgnoreGo fuel rest
    else decodeIgnoreGo fuel rest

/-- UTF-8 decoding with `errors='ignore'`: on an invalid or truncated
sequence the maximal valid prefix of that sequence (at least the lead byte)
is skipped and decoding continues, matching CPython's ignore handler. -/
def decodeIgnore (bs : List ℕ) : List Char :=
  decodeIgnoreGo bs.length bs

/-- One read iteration starting from raw bytes: decode the chunk (ignoring
invalid bytes), then feed the text to the buffer/split loop. -/
def byteFeedChunk (buf : List Char) (chunk : List ℕ) : List Char × List (List Char) :=
  feedChunk buf (decodeIgnore chunk)

/-- Feeding a sequence of byte chunks. -/
def byteFeedAll (buf : List Char) : List (List ℕ) → List Char × List (List Char)
  | [] => (buf, [])
  | c :: cs =>
    let p := byteFeedChunk buf c
    let q := byteFeedAll p.1 cs
    (q.1, p.2 ++ q.2)

/-! ### The Flux Analyzer (`src/src/analysis.py`)

`FluxCalculator.calculate` performs OLS on parallel lists `times`/`co2`.
The machine-float arithmetic is embedded as exact rationals.  The Python
code computes `r_squared = (numerator_r / sqrt(abs(A * B))) ** 2`; under
exact arithmetic that square root cancels: the value is
`numerator_r² / |A·B|`, and `sqrt(abs(A*B)) == 0` iff `A·B = 0`, which is
how it is rendered below. -/

structure RegressionResult where
  slope : ℚ
  intercept : ℚ
  r_squared : ℚ
  std_err : ℚ
  n : ℕ
  deriving DecidableEq, Repr

/-- `FluxCalculator.calculate` on window contents `times`, `co2`. -/
def calculate (times co2 : List ℚ) : RegressionResult :=
  let n := times.length
  if n < 2 then ⟨0, 0, 0, 0, n⟩
  else
    let t_start := times.headI
    let x := times.map (fun t => t - t_start)
    let y := co2
    let sum_x := x.sum
    let sum_y := y.sum
    let sum_xx := (x.map (fun a => a * a)).sum
    let sum_xy := ((x.zip y).map (fun p => p.1 * p.2)).sum
    let sum_yy := (y.map (fun a => a * a)).sum
    let denominator := (n : ℚ) * sum_xx - sum_x * sum_x
    if denominator = 0 then ⟨0, 0, 0, 0, n⟩
    else
      let slope := ((n : ℚ) * sum_xy - sum_x * sum_y) / denominator
      let intercept := (sum_y - slope * sum_x) / (n : ℚ)
      let numerator_r := (n : ℚ) * sum_xy - sum_x * sum_y
      let denr_sq := |((n : ℚ) * sum_xx - sum_x ^ 2) * ((n : ℚ) * sum_yy - sum_y ^ 2)|
      let r_squared := if denr_sq = 0 then 0 else numerator_r ^ 2 / denr_sq
      ⟨slope, intercept, r_squared, 0, n⟩

/-! ### Timeline reconstruction (`CO2PlotWidget.replot`)

The DT-accumulation loop of `replot`: per displayed plot, walk the raw DT
values; a drop by more than 5 seconds signals a new measurement session and
advances the base offset by `prev_dt + 5`. -/

/-- The offset update of one loop iteration
(`if dt < prev_dt - 5: offset += prev_dt + 5`). -/
def accumulateStep (offset prev dt : ℤ) : ℤ :=
  if dt < prev - 5 then offset + prev + 5 else offset

/-- The loop body, carrying `offset` and `prev_dt`. -/
def accumulateDTGo (offset prev : ℤ) : List ℤ → List ℤ
  | [] => []
  | dt :: rest =>
    let o := accumulateStep offset prev dt
    (dt + o) :: accumulateDTGo o dt rest

/-- `accumulated_dt` as computed by `replot` (initial `offset = 0`,
`prev_dt = 0`). -/
def accumulateDT (l : List ℤ) : List ℤ :=
  accumulateDTGo 0 0 l

/-- The trace of the base offset after each iteration (for stating where
the offset advances). -/
def offsetsDTGo (offset prev : ℤ) : List ℤ → List ℤ
  | [] => []
  | dt :: rest =>
    let o := accumulateStep offset prev dt
    o :: offsetsDTGo o dt rest

/-- Offset trace from the initial state. -/
def offsetsDT (l : List ℤ) : List ℤ :=
  offsetsDTGo 0 0 l

/-! ### The Channel Store (`CO2PlotWidget.add_data` / `clear_data`)

`add_data` receives the parser's dict; we model such a dict as a finite map
`String → Option PyVal` (`none` = key absent).  The widget state modelled
here is exactly the data state `add_data` and `clear_data` touch:
`_plot_data`, `_plot_dt`, `_plot_markers`, `_known_plots`,
`_plot_probe_types`, `_first_data_received`, `_filter_plot`, `_probe_type`,
`_channels_config`, `_current_plot`, `_current_dt`.  Pure rendering state
(`_active_channel`, cursor, marker glyph) and the posted UI messages are
not modelled.  Channel configs are compared by value in Python (`!=` on
dicts); the six config tables are pairwise distinct, so their ordered key
lists represent them faithfully. -/

/-- A Python value as it occurs in a parsed-record dict. -/
inductive PyVal where
  | vInt (n : ℤ)
  | vFloat (q : ℚ)
  | vStr (s : String)
  | vNone
  deriving DecidableEq, Repr

/-- A parsed-record dict. -/
def RMap : Type := String → Option PyVal

/-- Truncation toward zero, as Python `int(float)`. -/
def pyTrunc (q : ℚ) : ℤ :=
  if q < 0 then -(Int.floor (-q)) else Int.floor q

/-- Python `int(x)` under `except (ValueError, TypeError)`. -/
def pyValToInt : PyVal → Option ℤ
  | .vInt n => some n
  | .vFloat q => some (pyTrunc q)
  | .vStr s => pyIntChars? s.data
  | .vNone => none

/-- Python `float(x)` under `except (ValueError, TypeError)`. -/
def pyValToFloat : PyVal → Option ℚ
  | .vInt n => some (n : ℚ)
  | .vFloat q => some q
  | .vStr s => pyFloatChars? s.data
  | .vNone => none

/-- Python `str(x)`.  (The float rendering is approximated; probe-type
values arriving from the parser are always ints or strings.) -/
def pyValStr : PyVal → String
  | .vInt n => toString n
  | .vFloat q => toString q
  | .vStr s => s
  | .vNone => "None"

/-- Ordered key lists of the channel config tables of `co2_chart.py`. -/
def CHANNELS_SRC : List String := ["cr", "dc", "dt", "sr", "atmp"]

def CHANNELS_IRGA : List String := ["cr", "hr", "atmp"]

def CHANNELS_GENERIC : List String :=
  ["cr", "hr", "aux1", "aux2", "aux3", "aux4", "aux5", "atmp"]

def CHANNELS_HTR : List String := ["cr", "hr", "par", "rh", "temp", "atmp"]

def CHANNELS_CPY : List String :=
  ["cr", "hr", "par", "evap", "temp", "dc", "flow", "sr", "atmp"]

def CHANNELS_PMR : List String :=
  ["cr", "hr", "par", "rh", "temp", "rh_out", "flow", "gs", "atmp"]

/-- `CO2PlotWidget._get_config_for_type`: `int(pt)` under
`except (ValueError, TypeError)` falling back to the generic table. -/
def getConfigForType (v : PyVal) : List String :=
  match pyValToInt v with
  | none => CHANNELS_GENERIC
  | some pt =>
    if pt = 0 then CHANNELS_IRGA
    else if pt = 8 then CHANNELS_SRC
    else if pt = 11 then CHANNELS_CPY
    else if pt = 7 then CHANNELS_PMR
    else if pt = 1 ∨ pt = 2 ∨ pt = 3 then CHANNELS_HTR
    else CHANNELS_GENERIC

/-- The data state of `CO2PlotWidget`. -/
structure Store where
  plot_data : ℤ → Option (String → Option (List ℚ))
  plot_dt : ℤ → Option (List PyVal)
  plot_markers : ℤ → Option (List (ℚ × ℚ × String))
  known_plots : Finset ℤ
  plot_probe_types : ℤ → Option String
  first_data_received : Bool
  filter_plot : Option ℤ
  probe_type : PyVal
  channels_config : List String
  current_plot : ℤ
  current_dt : PyVal

/-- The widget as constructed (`__init__` with the default
`probe_type="GENERIC"` argument). -/
def freshStore : Store where
  plot_data := fun _ => none
  plot_dt := fun _ => none
  plot_markers := fun _ => none
  known_plots := ∅
  plot_probe_types := fun _ => none
  first_data_received := false
  filter_plot := none
  probe_type := .vStr "GENERIC"
  channels_config := getConfigForType (.vStr "GENERIC")
  current_plot := 0
  current_dt := .vInt 0

/-- `deque(maxlen=cap).append`: append and evict from the front beyond the
capacity. -/
def ringAppend (cap : ℕ) (l : List α) (x : α) : List α :=
  let l' := l ++ [x]
  if cap < l'.length then l'.drop (l'.length - cap) else l'

/-- `CO2PlotWidget._get_plot_channels`: lazily create the per-plot channel
deques (keys of the current config), DT deque and marker deque, and record
the plot as known. -/
def ensurePlot (s : Store) (p : ℤ) : Store :=
  if (s.plot_data p).isSome then s
  else
    { s with
      plot_data := fun q =>
        if q = p then some (fun k => if k ∈ s.channels_config then some [] else none)
        else s.plot_data q,
      plot_dt := fun q => if q = p then some [] else s.plot_dt q,
      plot_markers := fun q => if q = p then some [] else s.plot_markers q,
      known_plots := insert p s.known_plots }

/-- The probe-type detection block of `add_data` (`if 'probe_type' in
parsed_data:`): on first data always adopt the new config; afterwards only
when it differs, in which case existing plots gain the new config's missing
channel keys.  (The posted `ProbeTypeChanged` UI message is not data
state.) -/
def probeStep (s : Store) (v : Option PyVal) : Store :=
  match v with
  | none => s
  | some pt =>
    let new_config := getConfigForType pt
    if ¬ s.first_data_received then
      { s with first_data_received := true, probe_type := pt,
               channels_config := new_config }
    else if new_config ≠ s.channels_config then
      { s with probe_type := pt, channels_config := new_config,
               plot_data := fun p =>
                 (s.plot_data p).map (fun chans k =>
                   if k ∈ new_config ∧ chans k = none then some [] else chans k) }
    else s

/-- The key-standardizing aliases of `add_data`
(`parsed_data['cr'] = parsed_data['co2_ppm']`, `'hr'` from `'h2o'`). -/
def aliasKeys (r : RMap) : RMap := fun k =>
  if k = "cr" ∧ (r "co2_ppm").isSome then r "co2_ppm"
  else if k = "hr" ∧ (r "h2o").isSome then r "h2o"
  else r k

/-- The channel-append loop of `add_data`: for each key of the active
config present in the (aliased) dict, `float()` the value and append it to
that channel's deque of the current plot; conversion failures are skipped
(`except (ValueError, TypeError): pass`).  Only `_plot_data` is touched. -/
def appendChannels (cfg : List String) (r' : RMap) (plot_num : ℤ)
    (pd : ℤ → Option (String → Option (List ℚ))) :
    ℤ → Option (String → Option (List ℚ)) :=
  cfg.foldl
    (fun pd k =>
      match r' k with
      | none => pd
      | some v =>
        match pyValToFloat v with
        | none => pd
        | some q => fun p =>
            if p = plot_num then
              (pd p).map (fun chans kk =>
                if kk = k then (chans kk).map (fun l => ringAppend 5000 l q) else chans kk)
            else pd p)
    pd

/-- `parsed_data.get('plot', 0)`: a Reading's plot id is an int in the data
model; non-integer values are outside the embedding (the theorems below
assume int-or-absent) and default to 0 here. -/
def plotNumOf (r : RMap) : ℤ :=
  match r "plot" with
  | some (.vInt n) => n
  | _ => 0

/-- `CO2PlotWidget.add_data` (the `batch_mode` flag only skips the replot
rendering call and does not affect the data state). -/
def addData (s : Store) (r : RMap) : Store :=
  let plot_num : ℤ := plotNumOf r
  let s1 : Store := { s with current_plot := plot_num }
  let s2 : Store :=
    match r "dt" with
    | some v => { s1 with current_dt := v }
    | none => s1
  let s3 := probeStep s2 (r "probe_type")
  let ptStr := match r "probe_type" with | none => "GENERIC" | some v => pyValStr v
  let s4 : Store :=
    { s3 with plot_probe_types := fun p =>
        if p = plot_num then some ptStr else s3.plot_probe_types p }
  let s5 := ensurePlot s4 plot_num
  let dt_value := (r "dt").getD s5.current_dt
  let s6 : Store :=
    { s5 with plot_dt := fun p =>
        if p = plot_num then (s5.plot_dt p).map (fun l => ringAppend 5000 l dt_value)
        else s5.plot_dt p }
  { s6 with plot_data := appendChannels s6.channels_config (aliasKeys r) plot_num s6.plot_data }

/-- `CO2PlotWidget.clear_data`: clears buffers, timelines, markers and
known plots and resets the plot filter.  (`_plot_probe_types`,
`_first_data_received`, `_probe_type`, `_channels_config`, `_current_plot`
and `_current_dt` are retained.) -/
def clearData (s : Store) : Store :=
  { s with
    plot_data := fun _ => none
    plot_dt := fun _ => none
    plot_markers := fun _ => none
    known_plots := ∅
    filter_plot := none }

/-- A concrete SRC-1 reading for plot 1 (plot id, probe type and DT as the
parser produces them). -/
def readingPlotOne : RMap := fun k =>
  if k = "plot" then some (.vInt 1)
  else if k = "probe_type" then some (.vInt 8)
  else if k = "dt" then some (.vInt 0)
  else if k = "co2_ppm" then some (.vInt 400)
  else none

/-- A concrete SRC-1 reading for plot 2. -/
def readingPlotTwo : RMap := fun k =>
  if k = "plot" then some (.vInt 2)
  else if k = "probe_type" then some (.vInt 8)
  else if k = "dt" then some (.vInt 0)
  else if k = "co2_ppm" then some (.vInt 500)
  else none

end EGM

namespace EGM

/-! ## Claim theorems -/

/-- C1: for every input line, `_parse_data` returns a Reading (it is a total
function, never raising); in particular any line whose first character is
`R` or `M` but whose length is below the 20-character fixed-header minimum
decodes to kind `unknown` with the raw frame text preserved and no error
flag. -/
theorem short_measurement_line_is_unknown (line : String)
    (hHead : line.data.head? = some 'R' ∨ line.data.head? = some 'M')
    (hLen : line.data.length < 20) :
    (parseData line).typ = some "unknown" ∧
    (parseData line).raw = some line ∧
    (parseData line).error = none := by
  have hLen' : line.length < 20 := hLen
  rcases hHead with h | h <;>
    simp [parseData, h, Nat.not_le.mpr hLen, Nat.not_le.mpr hLen']

/-- Witness for C1 at the concrete two-character line `R0`. -/
theorem short_measurement_line_is_unknown_witness :
    (parseData "R0").typ = some "unknown" ∧
    (parseData "R0").raw = some "R0" ∧
    (parseData "R0").error = none :=
  short_measurement_line_is_unknown "R0" (Or.inl rfl) (by decide)

/-- C3: the canonical SRC-1 frame decodes to a measurement Reading of kind
`R` with probe type 8, CO₂ 429 ppm, atmospheric pressure 965 mb,
elapsed time (DT) 0 and delta-CO₂ 0. -/
theorem canonical_src_frame_decode :
    (parseData "R000001180313170042900000000000000000000000000000000000096508").typ = some "R" ∧
    (parseData "R000001180313170042900000000000000000000000000000000000096508").probe_type = some 8 ∧
    (parseData "R000001180313170042900000000000000000000000000000000000096508").co2_ppm = some 429 ∧
    (parseData "R000001180313170042900000000000000000000000000000000000096508").atmp = some 965 ∧
    (parseData "R000001180313170042900000000000000000000000000000000000096508").dt = some 0 ∧
    (parseData "R000001180313170042900000000000000000000000000000000000096508").dc = some 0 :=
  ⟨rfl, rfl, rfl, rfl, rfl, rfl⟩

/-- C4 (evaluation at the failing input): the synthetic probe-type-11 frame
built by `test_parse_type11_builds_signed_sr` (sr-magnitude field `0456`,
negative sign marker at position 56, pressure `9876` at the end-anchored
slot).  The decoder recognizes probe type 11 and stores `sr_mag = 4.56`,
but the field loop special-cases `sr_sign` to `pass` and no post-processing
exists for type 11, so no signed `sr` value and no `atmp` value are ever
produced — the repository's own test asserts `sr == -4.56` and
`atmp == 9876`. -/
theorem type11_frame_lacks_signed_sr_and_atmp :
    (parseData "M0100011501123000420000500012301230042023400150123045620-987611").probe_type = some 11 ∧
    (parseData "M0100011501123000420000500012301230042023400150123045620-987611").sr_mag = some (456 / 100) ∧
    (parseData "M0100011501123000420000500012301230042023400150123045620-987611").sr = none ∧
    (parseData "M0100011501123000420000500012301230042023400150123045620-987611").atmp = none :=
  ⟨rfl, rfl, rfl, rfl⟩

/-- C6 (counterexample): in the measurement header the seven core fields
are *not* extracted with per-field default-to-zero semantics.  Corrupting
only the day field (`1X`) of the canonical frame yields a Reading in which
`day` is not zero but absent, and the later header fields (`month` …
`co2_ppm`) are absent as well, with the error flag set — contradicting the
claim that one malformed header field defaults to zero while every other
field is still extracted. -/
theorem header_fault_counterexample :
    (parseData "R0000011X0313170042900000000000000000000000000000000000096508").typ = some "R" ∧
    (parseData "R0000011X0313170042900000000000000000000000000000000000096508").day = none ∧
    (parseData "R0000011X0313170042900000000000000000000000000000000000096508").month = none ∧
    (parseData "R0000011X0313170042900000000000000000000000000000000000096508").co2_ppm = none ∧
    (parseData "R0000011X0313170042900000000000000000000000000000000000096508").error = some "ValueError" :=
  ⟨rfl, rfl, rfl, rfl, rfl⟩

/-- C6 (amended): per-field default-to-zero applies to the optional fields
(H2O, RHT, probe type, probe-specific fields), but the seven core header
fields are parsed by unguarded `int()` calls: if the day field is malformed
while the fields before it parse, the decode aborts — the fields already
extracted (`type`, `plot`, `record`) are kept, everything later is absent,
and the Reading carries the error flag and the raw line. -/
theorem header_fault_aborts_rest (line : String) (p rec : ℤ)
    (hLen : 20 ≤ line.data.length)
    (hHead : line.data.head? = some 'R' ∨ line.data.head? = some 'M')
    (hPlot : pyIntChars? (pySlice line.data 1 3) = some p)
    (hRec : pyIntChars? (pySlice line.data 3 7) = some rec)
    (hDay : pyIntChars? (pySlice line.data 7 9) = none) :
    parseData line =
      { typ := some (String.mk [line.data.headI]), plot := some p,
        record := some rec, error := some "ValueError", raw := some line } := by
  have hLen' : 20 ≤ line.length := hLen
  have hcond : 20 ≤ line.data.length ∧
      (line.data.head? = some 'R' ∨ line.data.head? = some 'M') := ⟨hLen, hHead⟩
  simp [parseData, hcond, Nat.not_lt.mpr hLen, Nat.not_lt.mpr hLen',
    parseMeasurement, hPlot, hRec, hDay, errored]

/-- Witness for the amended C6: the corrupted-day frame, with
`plot = 0`, `record = 1` extracted and everything later absent. -/
theorem header_fault_aborts_rest_witness :
    parseData "R0000011X0313170042900000000000000000000000000000000000096508" =
      { typ := some "R", plot := some 0, record := some 1,
        error := some "ValueError",
        raw := some "R0000011X0313170042900000000000000000000000000000000000096508" } :=
  header_fault_aborts_rest
    "R0000011X0313170042900000000000000000000000000000000000096508" 0 1
    (by decide) (Or.inl rfl) rfl rfl rfl

/-- C7: feeding the DT values [0,5,10,3,8] through the replot timeline
reconstruction yields the display axis [0,5,10,18,23]: strictly increasing
(hence non-decreasing), with the single upward offset jump exactly at the
position where the value dropped from 10 to 3, where the base offset
advances from 0 to 15 = previous value 10 + fixed gap 5. -/
theorem timeline_reset_example :
    accumulateDT [0, 5, 10, 3, 8] = [0, 5, 10, 18, 23] ∧
    List.Chain' (· < ·) (accumulateDT [0, 5, 10, 3, 8]) ∧
    offsetsDT [0, 5, 10, 3, 8] = [0, 0, 0, 15, 15] ∧
    accumulateStep 0 10 3 = 10 + 5 := by
  have hacc : accumulateDT [0, 5, 10, 3, 8] = [0, 5, 10, 18, 23] := by decide
  refine ⟨hacc, ?_, by decide, by decide⟩
  rw [hacc]
  simp [List.chain'_cons]

/-- C8: with fewer than 2 points, or with all stored time values equal
(zero-variance time), `calculate` returns the all-zero result carrying the
actual number of stored points — and, being a total function, never
raises. -/
theorem regression_degenerate_zero (times co2 : List ℚ)
    (h : times.length < 2 ∨ ∀ t ∈ times, t = times.headI) :
    calculate times co2 = ⟨0, 0, 0, 0, times.length⟩ := by
  by_cases hlt : times.length < 2
  · simp [calculate, hlt]
  · rcases h with h | hall
    · exact absurd h hlt
    · have hx : ∀ a ∈ times.map (fun t => t - times.headI), a = 0 := by
        intro a ha
        rcases List.mem_map.mp ha with ⟨t, ht, rfl⟩
        rw [hall t ht]
        ring
      have hsx : (times.map (fun t => t - times.headI)).sum = 0 :=
        List.sum_eq_zero hx
      have hsxx :
          ((times.map (fun t => t - times.headI)).map (fun a => a * a)).sum = 0 := by
        refine List.sum_eq_zero ?_
        intro a ha
        rcases List.mem_map.mp ha with ⟨b, hb, rfl⟩
        rw [hx b hb]
        ring
      have hden : (times.length : ℚ) *
            ((times.map (fun t => t - times.headI)).map (fun a => a * a)).sum -
            (times.map (fun t => t - times.headI)).sum *
            (times.map (fun t => t - times.headI)).sum = 0 := by
        rw [hsx, hsxx]
        ring
      simp only [calculate]
      rw [if_neg hlt, if_pos hden]

/-- Witness for C8 at the two-point window with equal times. -/
theorem regression_degenerate_zero_witness :
    calculate [(1 : ℚ), 1] [3, 4] = ⟨0, 0, 0, 0, 2⟩ :=
  regression_degenerate_zero [(1 : ℚ), 1] [3, 4] (Or.inr (by decide))

/-! ### Splitter lemmas -/

/-- Splitting a concatenation: the records of `a ++ b` are the records of
`a` followed by the records of `a`'s leftover tail prepended to `b`. -/
theorem splitCR_append (a b : List Char) :
    splitCR (a ++ b) =
      ((splitCR a).1 ++ (splitCR ((splitCR a).2 ++ b)).1,
        (splitCR ((splitCR a).2 ++ b)).2) := by
  induction a with
  | nil => simp [splitCR]
  | cons c a ih =>
    by_cases hc : c = '\r'
    · subst hc
      simp only [List.cons_append, splitCR, if_pos, List.append_eq, ih]
    · rcases h1 : splitCR a with ⟨s1, r1⟩
      simp only [List.cons_append, splitCR, if_neg hc, List.append_eq, ih, h1]
      cases s1 with
      | nil =>
        rcases h2 : splitCR (r1 ++ b) with ⟨s2, r2⟩
        cases s2 <;> simp [splitCR, if_neg hc, h2, List.append_eq]
      | cons s ss => simp

/-- A delimiter-free text splits into no records and itself as leftover. -/
theorem splitCR_noCR (l : List Char) (h : '\r' ∉ l) : splitCR l = ([], l) := by
  induction l with
  | nil => simp [splitCR]
  | cons c cs ih =>
    have hc : c ≠ '\r' := fun e => h (e ▸ List.mem_cons_self c cs)
    have h' : '\r' ∉ cs := fun m => h (List.mem_cons_of_mem _ m)
    simp [splitCR, hc, ih h']

/-- The leftover tail of a split never contains the delimiter (the loop
invariant of `process_loop`'s buffer). -/
theorem splitCR_snd_noCR (l : List Char) : '\r' ∉ (splitCR l).2 := by
  induction l with
  | nil => simp [splitCR]
  | cons c cs ih =>
    by_cases hc : c = '\r'
    · simpa [splitCR, hc] using ih
    · rcases h1 : splitCR cs with ⟨s1, r1⟩
      rw [h1] at ih
      cases s1 with
      | nil =>
        simp only [splitCR, if_neg hc, h1]
        intro hm
        rcases List.mem_cons.mp hm with e | hm
        · exact hc e.symm
        · exact ih hm
      | cons s ss => simpa [splitCR, hc, h1] using ih

/-- Emission (strip + drop-empty) distributes over record concatenation. -/
theorem emitRecords_append (a b : List (List Char)) :
    emitRecords (a ++ b) = emitRecords a ++ emitRecords b := by
  simp [emitRecords, List.filter_append]

/-- Feeding a sequence of chunks after a delimiter-free buffer behaves as
one split of the whole text: the final buffer is the leftover tail and the
frames are the emitted records of all complete segments, in order. -/
theorem feedAll_eq_join (chunks : List (List Char)) (buf : List Char)
    (h : '\r' ∉ buf) :
    feedAll buf chunks =
      ((splitCR (buf ++ chunks.flatten)).2,
        emitRecords (splitCR (buf ++ chunks.flatten)).1) := by
  induction chunks generalizing buf with
  | nil => simp [feedAll, splitCR_noCR buf h, emitRecords]
  | cons c cs ih =>
    simp only [feedAll, feedChunk, List.flatten_cons]
    rw [ih _ (splitCR_snd_noCR (buf ++ c)), ← List.append_assoc,
      splitCR_append (buf ++ c) cs.flatten, emitRecords_append]

/-- C2 (amended): chunking invariance holds at the *text* level — for every
sequence of text chunks, feeding them one by one produces exactly the raw
frames (and hence exactly the decoded Readings, in the same order) of
feeding the concatenation in a single call.  At the raw *byte* level the
claim fails (see the counterexample): each chunk is decoded independently
with `errors='ignore'`, so a chunk boundary cutting a multi-byte UTF-8
sequence changes the reconstructed text. -/
theorem chunking_invariance_text (chunks : List (List Char)) :
    feedAll [] chunks = feedChunk [] chunks.flatten ∧
    (feedAll [] chunks).2.map (fun f => parseData (String.mk f)) =
      (feedChunk [] chunks.flatten).2.map (fun f => parseData (String.mk f)) := by
  have h := feedAll_eq_join chunks [] (by simp)
  refine ⟨?_, ?_⟩ <;> rw [h] <;> simp [feedChunk]

/-- C2 (counterexample): the byte stream `0xC3 0xA9 0x0D` (the UTF-8
encoding of `é` followed by the delimiter) fed as the two chunks
`[0xC3]`, `[0xA9 0x0D]` yields no frame, while fed whole it yields the
frame `é` — chunking invariance fails at the byte level. -/
theorem chunking_byte_counterexample :
    (byteFeedAll [] [[195], [169, 13]]).2 ≠ (byteFeedAll [] [[195, 169, 13]]).2 := by
  decide

/-- C5 (amended): the emitted frames are exactly the delimiter-separated
complete segments of the concatenated text — each segment once, in order
(no duplication), stripped of surrounding ASCII whitespace, with segments
that are empty after stripping dropped.  So besides the delimiter the
splitter also drops stripped whitespace and whitespace-only frames, and
(see the counterexample) invalid bytes are ignored — dropped, not replaced
— though decoding indeed never raises. -/
theorem splitter_emission (chunks : List (List Char)) :
    feedAll [] chunks =
      ((splitCR chunks.flatten).2, emitRecords (splitCR chunks.flatten).1) := by
  simpa using feedAll_eq_join chunks [] (by simp)

/-! ### Cauchy–Schwarz over lists (for the r² bound) -/

/-- A sum of squares is nonnegative. -/
theorem sum_sq_nonneg {α : Type} (l : List α) (f : α → ℚ) :
    0 ≤ (l.map fun p => f p * f p).sum := by
  induction l with
  | nil => simp
  | cons a l ih =>
    simp only [List.map_cons, List.sum_cons]
    exact add_nonneg (mul_self_nonneg (f a)) ih

/-- One inductive step of the Cauchy–Schwarz inequality. -/
theorem cs_step (fa ga S F G : ℚ) (hS : S ^ 2 ≤ F * G) (hF : 0 ≤ F) (hG : 0 ≤ G) :
    (fa * ga + S) ^ 2 ≤ (fa * fa + F) * (ga * ga + G) := by
  rcases hG.eq_or_lt with hG0 | hGpos
  · have hG0' : G = 0 := hG0.symm
    subst hG0'
    have hS0 : S = 0 := by
      have h1 : S ^ 2 ≤ 0 := by simpa using hS
      exact sq_eq_zero_iff.mp (le_antisymm h1 (sq_nonneg S))
    subst hS0
    nlinarith [mul_nonneg hF (mul_self_nonneg ga)]
  · nlinarith [sq_nonneg (fa * G - ga * S),
      mul_nonneg (mul_self_nonneg ga) (sub_nonneg.mpr hS),
      mul_nonneg hGpos.le (sub_nonneg.mpr hS), hGpos]

/-- Cauchy–Schwarz for list sums: `(Σ f·g)² ≤ (Σ f²)(Σ g²)`. -/
theorem list_cauchy_schwarz {α : Type} (l : List α) (f g : α → ℚ) :
    ((l.map fun p => f p * g p).sum) ^ 2 ≤
      ((l.map fun p => f p * f p).sum) * ((l.map fun p => g p * g p).sum) := by
  induction l with
  | nil => simp
  | cons a l ih =>
    simp only [List.map_cons, List.sum_cons]
    exact cs_step (f a) (g a) _ _ _ ih (sum_sq_nonneg l f) (sum_sq_nonneg l g)

/-- Expansion of a sum of products of affine images. -/
theorem sum_map_mul_linear {α : Type} (l : List α) (f g : α → ℚ) (A B C D : ℚ) :
    (l.map fun p => (A * f p - B) * (C * g p - D)).sum =
      A * C * (l.map fun p => f p * g p).sum - A * D * (l.map f).sum -
        B * C * (l.map g).sum + B * D * l.length := by
  induction l with
  | nil => simp
  | cons a l ih =>
    simp only [List.map_cons, List.sum_cons, List.length_cons]
    rw [ih]
    push_cast
    ring

/-- Covariance-form Cauchy–Schwarz:
`(nΣxy − ΣxΣy)² ≤ (nΣxx − (Σx)²)(nΣyy − (Σy)²)` over a list of pairs. -/
theorem centered_cauchy_schwarz (l : List (ℚ × ℚ)) :
    ((l.length : ℚ) * (l.map fun p => p.1 * p.2).sum -
        (l.map Prod.fst).sum * (l.map Prod.snd).sum) ^ 2 ≤
      ((l.length : ℚ) * (l.map fun p => p.1 * p.1).sum - (l.map Prod.fst).sum ^ 2) *
        ((l.length : ℚ) * (l.map fun p => p.2 * p.2).sum - (l.map Prod.snd).sum ^ 2) := by
  rcases Nat.eq_zero_or_pos l.length with h0 | hpos
  · obtain rfl : l = [] := List.length_eq_zero.mp h0
    simp
  · have hn : (0 : ℚ) < l.length := by exact_mod_cast hpos
    have key := list_cauchy_schwarz l
        (fun p => (l.length : ℚ) * p.1 - (l.map Prod.fst).sum)
        (fun p => (l.length : ℚ) * p.2 - (l.map Prod.snd).sum)
    simp only [] at key
    rw [sum_map_mul_linear l Prod.fst Prod.snd, sum_map_mul_linear l Prod.fst Prod.fst,
      sum_map_mul_linear l Prod.snd Prod.snd] at key
    nlinarith [key, mul_pos hn hn]

/-- `(Σx)² ≤ n·Σx²` (Cauchy–Schwarz against the constant list). -/
theorem sum_sq_le_card_mul (l : List ℚ) :
    l.sum ^ 2 ≤ (l.length : ℚ) * (l.map fun a => a * a).sum := by
  induction l with
  | nil => simp
  | cons a l ih =>
    have hQ : 0 ≤ (l.map fun a => a * a).sum := by
      simpa using sum_sq_nonneg l (fun a => a)
    simp only [List.sum_cons, List.map_cons, List.length_cons]
    push_cast
    rcases Nat.eq_zero_or_pos l.length with h0 | hpos
    · obtain rfl : l = [] := List.length_eq_zero.mp h0
      simp
      nlinarith [sq_nonneg a]
    · have hn' : (0 : ℚ) < l.length := by exact_mod_cast hpos
      nlinarith [sq_nonneg ((l.length : ℚ) * a - l.sum), ih, hQ, hn']

/-- C10: for a Flux Analyzer window of n ≥ 2 (time, concentration) points
whose time values are not all equal, the r² returned by `calculate` lies in
[0, 1] — under exact rational arithmetic, by Cauchy–Schwarz applied to the
covariance formula. -/
theorem r_squared_unit_interval (times co2 : List ℚ)
    (hlen : times.length = co2.length) (h2 : 2 ≤ times.length)
    (hne : ¬ ∀ t ∈ times, t = times.headI) :
    0 ≤ (calculate times co2).r_squared ∧ (calculate times co2).r_squared ≤ 1 := by
  have hn2 : ¬ times.length < 2 := Nat.not_lt.mpr h2
  have hxl : (times.map fun t => t - times.headI).length = times.length :=
    List.length_map _ _
  have hxy : (times.map fun t => t - times.headI).length = co2.length := by
    rw [hxl, hlen]
  -- Cauchy–Schwarz and the two nonnegativity facts, phrased over the
  -- centred time list `x` and the concentration list `y = co2`.
  have hA : ((times.map fun t => t - times.headI).sum) ^ 2 ≤
      (times.length : ℚ) *
        (((times.map fun t => t - times.headI).map fun a => a * a).sum) := by
    have h := sum_sq_le_card_mul (times.map fun t => t - times.headI)
    rwa [hxl] at h
  have hB : (co2.sum) ^ 2 ≤ (times.length : ℚ) * ((co2.map fun a => a * a).sum) := by
    have h := sum_sq_le_card_mul co2
    rwa [← hlen] at h
  have hzl : ((times.map fun t => t - times.headI).zip co2).length = times.length := by
    rw [List.length_zip, hxl, hlen, min_self, ← hlen]
  have hfst : ((times.map fun t => t - times.headI).zip co2).map Prod.fst =
      times.map fun t => t - times.headI :=
    List.map_fst_zip _ _ (le_of_eq hxy)
  have hsnd : ((times.map fun t => t - times.headI).zip co2).map Prod.snd = co2 :=
    List.map_snd_zip _ _ (ge_of_eq hxy)
  have hxx : (((times.map fun t => t - times.headI).zip co2).map fun p => p.1 * p.1).sum =
      (((times.map fun t => t - times.headI).map fun a => a * a).sum) := by
    conv_rhs => rw [← hfst, List.map_map]
    rfl
  have hyy : (((times.map fun t => t - times.headI).zip co2).map fun p => p.2 * p.2).sum =
      ((co2.map fun a => a * a).sum) := by
    conv_rhs => rw [← hsnd, List.map_map]
    rfl
  have hCS := centered_cauchy_schwarz ((times.map fun t => t - times.headI).zip co2)
  rw [hzl, hfst, hsnd, hxx, hyy] at hCS
  -- now unfold calculate and bound each branch
  simp only [calculate]
  rw [if_neg hn2]
  by_cases hden : (times.length : ℚ) *
        (((times.map fun t => t - times.headI).map fun a => a * a).sum) -
        ((times.map fun t => t - times.headI).sum) *
        ((times.map fun t => t - times.headI).sum) = 0
  · rw [if_pos hden]
    exact ⟨le_refl 0, by norm_num⟩
  · rw [if_neg hden]
    dsimp only
    by_cases habs : |((times.length : ℚ) *
          (((times.map fun t => t - times.headI).map fun a => a * a).sum) -
          ((times.map fun t => t - times.headI).sum) ^ 2) *
        ((times.length : ℚ) * ((co2.map fun a => a * a).sum) - (co2.sum) ^ 2)| = 0
    · rw [if_pos habs]
      exact ⟨le_refl 0, by norm_num⟩
    · rw [if_neg habs]
      have hAB : (0 : ℚ) ≤
          ((times.length : ℚ) *
            (((times.map fun t => t - times.headI).map fun a => a * a).sum) -
            ((times.map fun t => t - times.headI).sum) ^ 2) *
          ((times.length : ℚ) * ((co2.map fun a => a * a).sum) - (co2.sum) ^ 2) :=
        mul_nonneg (by linarith) (by linarith)
      have habs' : |((times.length : ℚ) *
            (((times.map fun t => t - times.headI).map fun a => a * a).sum) -
            ((times.map fun t => t - times.headI).sum) ^ 2) *
          ((times.length : ℚ) * ((co2.map fun a => a * a).sum) - (co2.sum) ^ 2)| =
          ((times.length : ℚ) *
            (((times.map fun t => t - times.headI).map fun a => a * a).sum) -
            ((times.map fun t => t - times.headI).sum) ^ 2) *
          ((times.length : ℚ) * ((co2.map fun a => a * a).sum) - (co2.sum) ^ 2) :=
        abs_of_nonneg hAB
      have hpos : (0 : ℚ) < |((times.length : ℚ) *
            (((times.map fun t => t - times.headI).map fun a => a * a).sum) -
            ((times.map fun t => t - times.headI).sum) ^ 2) *
          ((times.length : ℚ) * ((co2.map fun a => a * a).sum) - (co2.sum) ^ 2)| :=
        lt_of_le_of_ne (abs_nonneg _) (Ne.symm habs)
      constructor
      · exact div_nonneg (sq_nonneg _) (abs_nonneg _)
      · rw [div_le_one hpos, habs']
        exact hCS

/-- Witness for C10 at the two-point window (0,0), (1,1). -/
theorem r_squared_unit_interval_witness :
    0 ≤ (calculate [(0 : ℚ), 1] [0, 1]).r_squared ∧
      (calculate [(0 : ℚ), 1] [0, 1]).r_squared ≤ 1 :=
  r_squared_unit_interval [(0 : ℚ), 1] [0, 1] rfl (by decide) (by decide)

/-- C5 (counterexample): the four-byte chunk `" a \r"` emits the single
one-character frame `a` with an empty leftover buffer — the two space
bytes are dropped though they are not delimiters; and the invalid byte
`0xC3` decodes to nothing under `errors='ignore'` (dropped, not
replaced). -/
theorem splitter_byte_drop_counterexample :
    (feedAll [] [(" a \r").data]).2 = ["a".data] ∧
    (feedAll [] [(" a \r").data]).1 = [] ∧
    (" a \r").data.length = 4 ∧
    decodeIgnore [195] = [] := by
  refine ⟨by decide, by decide, by decide, by decide⟩

/-! ### Channel-Store lemmas -/

/-- After the probe-detection step with a probe-type value present, the
active config is the config for that value, in all three branches. -/
theorem probeStep_config (s : Store) (v : PyVal) :
    (probeStep s (some v)).channels_config = getConfigForType v := by
  simp only [probeStep]
  by_cases h1 : ¬ s.first_data_received
  · rw [if_pos h1]
  · rw [if_neg h1]
    by_cases h2 : getConfigForType v ≠ s.channels_config
    · rw [if_pos h2]
    · rw [if_neg h2]
      exact (not_not.mp h2).symm

/-- The probe-detection step keeps an empty plot-data map empty. -/
theorem probeStep_plot_data_empty (s : Store) (v : Option PyVal)
    (h : s.plot_data = fun _ => none) :
    (probeStep s v).plot_data = fun _ => none := by
  cases v with
  | none => exact h
  | some pt =>
    simp only [probeStep]
    by_cases h1 : ¬ s.first_data_received
    · rw [if_pos h1]
      exact h
    · rw [if_neg h1]
      by_cases h2 : getConfigForType pt ≠ s.channels_config
      · rw [if_pos h2]
        funext p
        simp [h]
      · rw [if_neg h2]
        exact h

/-- The probe-detection step never touches timelines, markers, known plots,
the plot filter or the tracked current DT. -/
theorem probeStep_rest (s : Store) (v : Option PyVal) :
    (probeStep s v).plot_dt = s.plot_dt ∧
    (probeStep s v).plot_markers = s.plot_markers ∧
    (probeStep s v).known_plots = s.known_plots ∧
    (probeStep s v).filter_plot = s.filter_plot ∧
    (probeStep s v).current_dt = s.current_dt := by
  cases v with
  | none => exact ⟨rfl, rfl, rfl, rfl, rfl⟩
  | some pt =>
    simp only [probeStep]
    by_cases h1 : ¬ s.first_data_received
    · rw [if_pos h1]
      exact ⟨rfl, rfl, rfl, rfl, rfl⟩
    · rw [if_neg h1]
      by_cases h2 : getConfigForType pt ≠ s.channels_config
      · rw [if_pos h2]
        exact ⟨rfl, rfl, rfl, rfl, rfl⟩
      · rw [if_neg h2]
        exact ⟨rfl, rfl, rfl, rfl, rfl⟩

/-- `add_data` on a store with no per-plot buffers (e.g. just cleared, or
fresh), for a reading carrying `probe_type` and `dt`: the data state it
builds is determined by the reading alone plus the store's prior timelines,
markers, known plots and filter. -/
theorem addData_empty_spec (s : Store) (r : RMap) (vpt vdt : PyVal)
    (hvpt : r "probe_type" = some vpt) (hvdt : r "dt" = some vdt)
    (hpd : s.plot_data = fun _ => none) :
    (addData s r).plot_data =
      appendChannels (getConfigForType vpt) (aliasKeys r) (plotNumOf r)
        (fun q => if q = plotNumOf r then
            some (fun k => if k ∈ getConfigForType vpt then some [] else none)
          else none) ∧
    (addData s r).plot_dt =
      (fun p => if p = plotNumOf r then some [vdt] else s.plot_dt p) ∧
    (addData s r).plot_markers =
      (fun p => if p = plotNumOf r then some [] else s.plot_markers p) ∧
    (addData s r).known_plots = insert (plotNumOf r) s.known_plots ∧
    (addData s r).filter_plot = s.filter_plot := by
  by_cases h1 : s.first_data_received <;>
    by_cases h2 : getConfigForType vpt = s.channels_config <;>
      refine ⟨?_, ?_, ?_, ?_, ?_⟩ <;>
        first
          | (funext p
             by_cases hp : p = plotNumOf r <;>
               simp [addData, hvpt, hvdt, probeStep, ensurePlot, hpd, h1, h2, hp,
                 ringAppend])
          | simp [addData, hvpt, hvdt, probeStep, ensurePlot, hpd, h1, h2, ringAppend]

/-- C9 (counterexample): `clear_data` does not clear the per-plot
probe-type tracking map.  Add a plot-1 reading, clear, then add a plot-2
reading: the store still tracks a probe type for plot 1, while a fresh
store that received only the plot-2 reading does not — the two stores are
distinguishable in the claim's observable state. -/
theorem clear_retains_probe_tracking :
    (addData (clearData (addData freshStore readingPlotOne))
        readingPlotTwo).plot_probe_types 1 = some "8" ∧
    (addData freshStore readingPlotTwo).plot_probe_types 1 = none := by
  constructor <;> rfl

/-- C9 (amended): for a Reading carrying a probe-type code and a DT value
(and an integer-or-absent plot id, as the data model requires), clearing
and then adding the Reading matches a fresh store that received only that
Reading in the per-plot channel buffers, timelines, markers, known plots
and plot filter.  The per-plot probe-type tracking map is *not* part of
this equivalence: `clear_data` retains its stale entries (see the
counterexample), as well as the probe-config/first-data/current-DT
bookkeeping. -/
theorem clear_then_add_matches_fresh (s : Store) (r : RMap) (vpt vdt : PyVal)
    (hplot : r "plot" = none ∨ ∃ n, r "plot" = some (.vInt n))
    (hvpt : r "probe_type" = some vpt) (hvdt : r "dt" = some vdt) :
    (addData (clearData s) r).plot_data = (addData freshStore r).plot_data ∧
    (addData (clearData s) r).plot_dt = (addData freshStore r).plot_dt ∧
    (addData (clearData s) r).plot_markers = (addData freshStore r).plot_markers ∧
    (addData (clearData s) r).known_plots = (addData freshStore r).known_plots ∧
    (addData (clearData s) r).filter_plot = (addData freshStore r).filter_plot := by
  obtain ⟨pda, dta, mka, kna, fla⟩ :=
    addData_empty_spec (clearData s) r vpt vdt hvpt hvdt rfl
  obtain ⟨pdb, dtb, mkb, knb, flb⟩ :=
    addData_empty_spec freshStore r vpt vdt hvpt hvdt rfl
  refine ⟨?_, ?_, ?_, ?_, ?_⟩
  · rw [pda, pdb]
  · rw [dta, dtb]
    funext p
    by_cases hp : p = plotNumOf r <;> simp [clearData, freshStore, hp]
  · rw [mka, mkb]
    funext p
    by_cases hp : p = plotNumOf r <;> simp [clearData, freshStore, hp]
  · rw [kna, knb]
    simp [clearData, freshStore]
  · rw [fla, flb]
    simp [clearData, freshStore]

/-- Witness for the amended C9 at a concrete store and reading. -/
theorem clear_then_add_matches_fresh_witness :
    (addData (clearData freshStore) readingPlotTwo).plot_data =
      (addData freshStore readingPlotTwo).plot_data ∧
    (addData (clearData freshStore) readingPlotTwo).plot_dt =
      (addData freshStore readingPlotTwo).plot_dt ∧
    (addData (clearData freshStore) readingPlotTwo).plot_markers =
      (addData freshStore readingPlotTwo).plot_markers ∧
    (addData (clearData freshStore) readingPlotTwo).known_plots =
      (addData freshStore readingPlotTwo).known_plots ∧
    (addData (clearData freshStore) readingPlotTwo).filter_plot =
      (addData freshStore readingPlotTwo).filter_plot :=
  clear_then_add_matches_fresh freshStore readingPlotTwo (.vInt 8) (.vInt 0)
    (Or.inr ⟨2, rfl⟩) rfl rfl

end EGM

